import Mathlib

set_option maxRecDepth 20000

/-!
Shallow embedding of `orgroamtocosma.py`, a one-pass batch converter from an
Org-roam vault to Cosma-flavoured Markdown notes.  Strings are modelled as
`List Char`; every regular-expression call of the source is translated into an
explicit left-to-right scanner with the same matching and backtracking
behaviour.  File-system and clock effects are modelled as explicit inputs: each
input file carries its path stem, its text, and the datetime that
`create_id` would derive for it.
-/

/-- Program strings are lists of characters. -/
abbrev Str := List Char

/-- Character data of a string literal. -/
def lit (s : String) : Str := s.data

/-- Python truthiness of a string: `None` and the empty string are falsy.
`pyOrS v d` models the expression `v or d` where `v` is an optional string
and `d` a string. -/
def pyOrS (v : Option Str) (d : Str) : Str :=
  match v with
  | none => d
  | some s => if s = [] then d else s

/-- `pyOr a b` models `a or b` where both operands are optional strings
(used for `meta["id"] or title2id[...]`, where the right operand may be a
failed dictionary lookup). -/
def pyOr (a : Option Str) (b : Option Str) : Option Str :=
  match a with
  | none => b
  | some s => if s = [] then b else some s

/-- Python whitespace characters recognised by `str.strip()`. -/
def isPyWs (c : Char) : Bool :=
  c = ' ' || c = '\t' || c = '\n' || c = '\r' || c = Char.ofNat 11 || c = Char.ofNat 12

/-- Python `str.strip()`: remove whitespace from both ends. -/
def pyStrip (s : Str) : Str :=
  ((s.dropWhile isPyWs).reverse.dropWhile isPyWs).reverse

/-- Python `str.split(sep)` for a one-character separator: splitting the empty
string yields `[""]`, and separators at the ends yield empty fields. -/
def splitOnChar (sep : Char) : Str → List Str
  | [] => [[]]
  | c :: rest =>
    if c = sep then [] :: splitOnChar sep rest
    else
      match splitOnChar sep rest with
      | g :: gs => (c :: g) :: gs
      | [] => [[c]]

/-- The lines of a text, as cut at newline characters; this is where the
`re.MULTILINE` anchors `^` and `$` of the source can match. -/
def linesOf (s : Str) : List Str := splitOnChar '\n' s

/-- Python `str.replace(pat, rep)` with fuel (one unit per scanned character):
replace the leftmost non-overlapping occurrences, continuing after each
replacement.  All patterns used by the source are nonempty. -/
def replaceAllAux (pat rep : Str) : Nat → Str → Str
  | 0, s => s
  | _ + 1, [] => []
  | fuel + 1, c :: rest =>
    if pat ≠ [] ∧ pat.isPrefixOf (c :: rest) then
      rep ++ replaceAllAux pat rep fuel (List.drop pat.length (c :: rest))
    else
      c :: replaceAllAux pat rep fuel rest

/-- Python `str.replace(pat, rep)`. -/
def replaceAll (pat rep s : Str) : Str := replaceAllAux pat rep s.length s

/-- Decidable substring test (Python `needle in hay`, used only in
statements). -/
def containsStr : Str → Str → Bool
  | [], needle => needle.isPrefixOf []
  | c :: rest, needle => needle.isPrefixOf (c :: rest) || containsStr rest needle

/-- Index of the last `.` in a name, if any (Python `name.rfind(".")` when the
result is non-negative). -/
def lastDotIdx : Str → Option Nat
  | [] => none
  | c :: rest =>
    match lastDotIdx rest with
    | some i => some (i + 1)
    | none => if c = '.' then some 0 else none

/-- `pathlib.Path(p).stem`: the final path component without its suffix; a dot
counts as a suffix separator only when it is neither the first nor the last
character of the component. -/
def pathStem (p : Str) : Str :=
  let name := (splitOnChar '/' p).getLastD []
  match lastDotIdx name with
  | some i => if 0 < i ∧ i < name.length - 1 then name.take i else name
  | none => name

/-- `clean_filename` (source lines 61-63): fold to ASCII and replace spaces by
dashes.  The NFD normalisation followed by `encode("ascii", "ignore")` is
modelled on the ASCII subset, where NFD is the identity and the encoding
keeps exactly the characters below code point 128. -/
def clean_filename (name : Str) : Str :=
  (name.filter (fun c => c.toNat < 128)).map (fun c => if c = ' ' then '-' else c)

/-- Whitespace that `\s` can match without leaving the current line. -/
def isPyWsNoNl (c : Char) : Bool :=
  c = ' ' || c = '\t' || c = '\r' || c = Char.ofNat 11 || c = Char.ofNat 12

/-- First line carrying a given header field: scan the lines in order, and on
the first line that starts with the marker `pat` and has a nonempty remainder,
return the stripped remainder (`re.search` of `pat` + `\s*(.+)$` in MULTILINE
mode, followed by `.group(1).strip()`; the group may strip to the empty
string when the remainder is all blanks). -/
def findFieldLine (pat : Str) : List Str → Option Str
  | [] => none
  | l :: rest =>
    if pat.isPrefixOf l ∧ List.drop pat.length l ≠ [] then
      some (pyStrip (List.drop pat.length l))
    else
      findFieldLine pat rest

/-- The group captured by `\s*:?(.+?):?$` on the remainder of a
`#+filetags:` line: skip blanks, drop one leading colon when something
follows it, and drop one trailing colon when the group stays nonempty
(the lazy group takes the shortest nonempty span that lets `:?$` close the
line). -/
def parseTagsRest (r : Str) : Option Str :=
  let s0 := r.dropWhile isPyWsNoNl
  if s0 = [] then
    if r = [] then none else some []
  else
    let s1 := if s0.head? = some ':' ∧ 2 ≤ s0.length then s0.drop 1 else s0
    some (if 2 ≤ s1.length ∧ s1.getLast? = some ':' then s1.dropLast else s1)

/-- First `#+filetags:` line whose remainder produces a tag group. -/
def findTagsG : List Str → Option Str
  | [] => none
  | l :: rest =>
    if (lit "#+filetags:").isPrefixOf l then
      match parseTagsRest (List.drop 11 l) with
      | some g => some g
      | none => findTagsG rest
    else
      findTagsG rest

/-- Metadata record returned by `parse_org_frontmatter`. -/
structure OrgMeta where
  title : Option Str
  tags : List Str
  id : Option Str
deriving DecidableEq

/-- `parse_org_frontmatter` (source lines 67-82): extract title, tags, and id
from the header lines.  The legacy `#+roam_key:` value is used when the `:ID:`
property is absent or strips to the empty string. -/
def parse_org_frontmatter (content : Str) : OrgMeta :=
  let ls := linesOf content
  let titleV := findFieldLine (lit "#+title:") ls
  let tagsG := findTagsG ls
  let idV := findFieldLine (lit ":ID:") ls
  let roamkeyV := findFieldLine (lit "#+roam_key:") ls
  let tags :=
    match tagsG with
    | some g => ((splitOnChar ':' g).map pyStrip).filter (fun t => t ≠ [])
    | none => []
  let id_ :=
    match idV with
    | none => roamkeyV
    | some v =>
      if v = [] then
        match roamkeyV with
        | some r => some r
        | none => some v
      else some v
  { title := titleV, tags := tags, id := id_ }

/-- A wall-clock datetime as `datetime.fromtimestamp` produces it. -/
structure PyDateTime where
  year : Nat
  month : Nat
  day : Nat
  hour : Nat
  minute : Nat
  second : Nat
deriving DecidableEq

/-- Decimal digits of a natural number (fuel-driven so that the kernel can
evaluate it). -/
def natDigitsAux : Nat → Nat → Str
  | 0, _ => []
  | fuel + 1, n =>
    if n < 10 then [Char.ofNat (48 + n)]
    else natDigitsAux fuel (n / 10) ++ [Char.ofNat (48 + n % 10)]

/-- Decimal digits of `n`, without padding (`strftime` directive `%Y`). -/
def natDigits (n : Nat) : Str := natDigitsAux (n + 1) n

/-- Two-digit zero-padded decimal (`strftime` directives `%m %d %H %M %S`). -/
def pad2 (n : Nat) : Str := if n < 10 then '0' :: natDigits n else natDigits n

/-- `strftime("%Y%m%d%H%M%S")` on a datetime. -/
def formatTs (d : PyDateTime) : Str :=
  natDigits d.year ++ pad2 d.month ++ pad2 d.day ++ pad2 d.hour ++
    pad2 d.minute ++ pad2 d.second

/-- Datetimes that `datetime.fromtimestamp` produces for present-era
timestamps. -/
def validDT (d : PyDateTime) : Prop :=
  1000 ≤ d.year ∧ d.year ≤ 9999 ∧ d.month ≤ 12 ∧ d.day ≤ 31 ∧
    d.hour ≤ 23 ∧ d.minute ≤ 59 ∧ d.second ≤ 59

instance (d : PyDateTime) : Decidable (validDT d) := by
  unfold validDT; infer_instance

/-- One input note file: its path stem, its text, and the datetime that
`create_id` would derive for it (from the creation or modification time when
`--creationdate` is set, otherwise from the wall clock at processing time;
either way it is an ambient input of the run). -/
structure OrgFile where
  stem : Str
  content : Str
  ts : PyDateTime
deriving DecidableEq

/-- `create_id` (source lines 57-59): format the timestamp of the file to
second precision. -/
def create_id (f : OrgFile) : Str := formatTs f.ts

/-- Python dict assignment `d[k] = v`: update the value in place when the key
exists, else append the new binding (insertion order is preserved). -/
def dictInsert : List (Str × Str) → Str → Str → List (Str × Str)
  | [], k, v => [(k, v)]
  | (k0, v0) :: rest, k, v =>
    if k0 = k then (k0, v) :: rest else (k0, v0) :: dictInsert rest k v

/-- Python dict lookup `d[k]`, returning `none` where Python raises
`KeyError`. -/
def dictLookup : List (Str × Str) → Str → Option Str
  | [], _ => none
  | (k0, v0) :: rest, k => if k0 = k then some v0 else dictLookup rest k

/-- Try to match the link pattern `\[\[([^\]]+?)\](?:\[([^\]]+)\])?\]` at the
start of `s`.  Group 1 is forced to the nonempty span of non-`]` characters up
to the first `]`; the optional labelled part `[label]` is tried greedily and,
exactly as the regex backtracks, a failure inside it can only fall back to the
unlabelled form when the next character is itself `]`.  Returns the target,
the optional label, and the text after the match. -/
def tryMatchLink (s : Str) : Option (Str × Option Str × Str) :=
  match s with
  | '[' :: '[' :: t =>
    let g1 := t.takeWhile (fun c => c ≠ ']')
    let r1 := t.dropWhile (fun c => c ≠ ']')
    if g1 = [] then none
    else
      match r1 with
      | ']' :: '[' :: u =>
        let g2 := u.takeWhile (fun c => c ≠ ']')
        let r3 := u.dropWhile (fun c => c ≠ ']')
        if g2 = [] then none
        else
          match r3 with
          | ']' :: ']' :: rest => some (g1, some g2, rest)
          | _ => none
      | ']' :: ']' :: rest => some (g1, none, rest)
      | _ => none
  | _ => none

/-- The replacement callback `repl` inside `convert_org_links` (source lines
86-109).  `label = match.group(2) or match.group(1)`; a captured group 2 is
never empty.  The membership test plus indexing on `title2id` is modelled by
eliminating the lookup result. -/
def linkRepl (t2id : List (Str × Str)) (zettlr : Bool) (target : Str)
    (g2 : Option Str) : Str :=
  let label := match g2 with | some l => l | none => target
  if (lit "id:").isPrefixOf target then
    let id_ := replaceAll (lit "id:") [] target
    if zettlr then lit "[" ++ label ++ (lit "]([[" ++ (id_ ++ lit "]])"))
    else lit "[[" ++ id_ ++ (lit "|" ++ (label ++ lit "]]"))
  else if (lit "file:").isPrefixOf target then
    let file_ref := clean_filename (pathStem (replaceAll (lit "file:") [] target))
    (dictLookup t2id file_ref).elim
      (lit "[[" ++ (label ++ lit "]]"))
      (fun id_ =>
        if zettlr then lit "[" ++ label ++ (lit "]([[" ++ (id_ ++ lit "]])"))
        else lit "[[" ++ id_ ++ (lit "|" ++ (label ++ lit "]]")))
  else if (lit "http://").isPrefixOf target ∨ (lit "https://").isPrefixOf target then
    lit "[" ++ label ++ (lit "](" ++ (target ++ lit ")"))
  else
    lit "[[" ++ (label ++ lit "]]")

/-- The `re.sub` scan of `convert_org_links`: at each position try the link
pattern; on a match emit the replacement and continue after the match, else
copy one character.  Fuel is one unit per position, which suffices because
every match consumes at least one character. -/
def convertLinksAux (t2id : List (Str × Str)) (zettlr : Bool) : Nat → Str → Str
  | 0, s => s
  | _ + 1, [] => []
  | fuel + 1, c :: rest =>
    match tryMatchLink (c :: rest) with
    | some (g1, g2, after) =>
      linkRepl t2id zettlr g1 g2 ++ convertLinksAux t2id zettlr fuel after
    | none => c :: convertLinksAux t2id zettlr fuel rest

/-- `convert_org_links` (source lines 84-113). -/
def convert_org_links (content : Str) (t2id : List (Str × Str)) (zettlr : Bool) : Str :=
  convertLinksAux t2id zettlr content.length content

/-- Try one image extension alternative followed by `\]\]`; returns the
extension and the text after the closing brackets. -/
def extTry (e : Str) (r : Str) : Option (Str × Str) :=
  if e.isPrefixOf r ∧ (lit "]]").isPrefixOf (List.drop e.length r) then
    some (e, List.drop (e.length + 2) r)
  else none

/-- The alternation `(?:png|jpg|jpeg|gif)` with its `\]\]` continuation, tried
in the order the regex tries it. -/
def extAlt (r : Str) : Option (Str × Str) :=
  match extTry (lit "png") r with
  | some res => some res
  | none =>
    match extTry (lit "jpg") r with
    | some res => some res
    | none =>
      match extTry (lit "jpeg") r with
      | some res => some res
      | none => extTry (lit "gif") r

/-- The lazy body `.+?\.(?:png|jpg|jpeg|gif)\]\]` of the image pattern,
matched at the current position: grow the lazy group one (non-newline)
character at a time and after each step try the dot, the extension, and the
closing brackets.  Returns group 1 (body including dot and extension) and the
text after the match. -/
def imageBody (pre : Str) : Str → Option (Str × Str)
  | [] => none
  | c :: rest =>
    if c = '\n' then none
    else
      match rest with
      | '.' :: r2 =>
        (match extAlt r2 with
         | some (e, after) => some ((pre ++ [c]) ++ '.' :: e, after)
         | none => imageBody (pre ++ [c]) rest)
      | _ => imageBody (pre ++ [c]) rest

/-- The `re.sub` scan of `convert_images` over the pattern
`\[\[file:(.+?\.(?:png|jpg|jpeg|gif))\]\]`. -/
def convertImagesAux : Nat → Str → Str
  | 0, s => s
  | _ + 1, [] => []
  | fuel + 1, c :: rest =>
    if (lit "[[file:").isPrefixOf (c :: rest) then
      match imageBody [] (List.drop 7 (c :: rest)) with
      | some (g1, after) =>
        lit "![](" ++ g1 ++ lit ")" ++ convertImagesAux fuel after
      | none => c :: convertImagesAux fuel rest
    else c :: convertImagesAux fuel rest

/-- `convert_images` (source lines 115-117). -/
def convert_images (content : Str) : Str :=
  convertImagesAux content.length content

/-- Source line 160: `re.sub(r"^#\+.*$", "", content, flags=re.MULTILINE)`
deletes the text of every line starting with `#+`, keeping the newline. -/
def stripMetaLines (content : Str) : Str :=
  List.intercalate (lit "\n")
    ((linesOf content).map (fun l => if (lit "#+").isPrefixOf l then [] else l))

/-- Suffix after the first occurrence of `:END:`, if any (the lazy
`[\s\S]*?:END:` tail of the property-block pattern). -/
def findEndTail : Str → Option Str
  | [] => none
  | c :: rest =>
    if (lit ":END:").isPrefixOf (c :: rest) then some (List.drop 5 (c :: rest))
    else findEndTail rest

/-- The `re.sub` scan of source line 161 over
`^:PROPERTIES:[\s\S]*?:END:` in MULTILINE mode: at every line-start position
where `:PROPERTIES:` matches and some later `:END:` closes it, delete through
the end of the first such `:END:` and continue scanning right after it (which
is never a line start, as the match ends in a colon). -/
def stripPropAux : Nat → Bool → Str → Str
  | 0, _, s => s
  | _ + 1, _, [] => []
  | fuel + 1, atStart, c :: rest =>
    if atStart ∧ (lit ":PROPERTIES:").isPrefixOf (c :: rest) then
      match findEndTail (List.drop 12 (c :: rest)) with
      | some after => stripPropAux fuel false after
      | none => c :: stripPropAux fuel (c == '\n') rest
    else c :: stripPropAux fuel (c == '\n') rest

/-- Source line 161: delete property blocks. -/
def stripPropertyBlocks (content : Str) : Str :=
  stripPropAux content.length true content

/-- A property block as the pattern of line 161 sees one (used only in
statements). -/
def propBlock (x : Str) : Str := lit ":PROPERTIES:" ++ x ++ lit ":END:"

/-- The line-start status after scanning past `m`, starting from status `b`
(used only in statements). -/
def afterStatus (b : Bool) : Str → Bool
  | [] => b
  | c :: m => afterStatus (c == '\n') m

/-- The title used for a note in the second pass (source line 151):
`meta["title"] or Path(f).stem`. -/
def noteTitle (f : OrgFile) : Str :=
  pyOrS (parse_org_frontmatter f.content).title f.stem

/-- The YAML front matter block (source lines 165-170); the `tags` line is
emitted only when the tag list is nonempty. -/
def frontmatterFor (title id_ : Str) (tags : List Str) : Str :=
  lit "---\n" ++ lit "title: " ++ title ++ lit "\n" ++ lit "id: " ++ id_ ++ lit "\n" ++
    (if tags = [] then []
     else lit "tags: [" ++ List.intercalate (lit ", ") tags ++ lit "]\n") ++
    lit "---\n\n"

/-- One step of the first pass (source lines 136-144).  Line 139
`print(infile.read())` exhausts the file handle, so the read on line 140
yields the empty string: the metadata of this pass is always parsed from
empty content, making the index key the cleaned filename stem and the value a
freshly generated timestamp id. -/
def buildStep (t2id : List (Str × Str)) (f : OrgFile) : List (Str × Str) :=
  let content : Str := []
  let meta := parse_org_frontmatter content
  let title := pyOrS meta.title f.stem
  let id_ := pyOrS meta.id (create_id f)
  dictInsert t2id (clean_filename title) id_

/-- The first pass over all collected files (source lines 136-144). -/
def buildIndex (files : List OrgFile) : List (Str × Str) :=
  files.foldl buildStep []

/-- The per-file body of the second pass (source lines 147-177): parse the
real content, resolve the id (`meta["id"] or title2id[clean_filename(title)]`,
where a missing dictionary key raises `KeyError`, modelled as `none`), rewrite
links and images, strip metadata, and assemble the output name and text. -/
def step3Note (t2id : List (Str × Str)) (zettlr : Bool) (f : OrgFile) :
    Option (Str × Str) :=
  let meta := parse_org_frontmatter f.content
  let title := pyOrS meta.title f.stem
  match pyOr meta.id (dictLookup t2id (clean_filename title)) with
  | none => none
  | some id_ =>
    let tags := meta.tags
    let c1 := convert_org_links f.content t2id zettlr
    let c2 := convert_images c1
    let c3 := stripMetaLines c2
    let c4 := stripPropertyBlocks c3
    let c5 := pyStrip c4
    let fm := frontmatterFor title id_ tags
    some (clean_filename (pathStem title) ++ lit ".md", fm ++ c5 ++ lit "\n")

/-- The second pass over all files: outputs written in order, and a flag that
is false when an uncaught `KeyError` aborted the run (later files are then not
processed). -/
def runStep3 (t2id : List (Str × Str)) (zettlr : Bool) :
    List OrgFile → List (Str × Str) × Bool
  | [] => ([], true)
  | f :: rest =>
    match step3Note t2id zettlr f with
    | none => ([], false)
    | some out =>
      match runStep3 t2id zettlr rest with
      | (outs, ok) => (out :: outs, ok)

/-- The observable outcome of one run: the Markdown files written (name and
text, in order), the rows of the `_title2id.csv` side file (absent when the
run aborted before reaching it), and whether the run aborted. -/
structure RunResult where
  outputs : List (Str × Str)
  csv : Option (List (Str × Str))
  aborted : Bool
deriving DecidableEq

/-- `main` (source lines 121-186) on a collected list of files.  The `--tags`
option is parsed on line 32 and never read again, so it is an ignored
argument here; the `--creationdate` choice is absorbed into the per-file
timestamp. -/
def runPipeline (tags : Option Str) (zettlr : Bool) (files : List OrgFile) :
    RunResult :=
  let t2id := buildIndex files
  match runStep3 t2id zettlr files with
  | (outs, ok) =>
    { outputs := outs, csv := if ok then some t2id else none, aborted := !ok }

/-! Concrete inputs used in the claim theorems, counterexamples and
witnesses. -/

/-- A first-pass timestamp. -/
def tsA : PyDateTime := ⟨2024, 1, 2, 3, 4, 5⟩

/-- A second first-pass timestamp, one second later. -/
def tsB : PyDateTime := ⟨2024, 1, 2, 3, 4, 6⟩

/-- A note that declares both a title equal to its stem and an explicit id
inside a property drawer. -/
def fileA : OrgFile :=
  ⟨lit "note", lit "#+title: note\n:PROPERTIES:\n:ID: myid\n:END:\nBody\n", tsA⟩

/-- A note with no header fields whose body links to `fileA` by filename. -/
def fileB : OrgFile := ⟨lit "b", lit "[[file:note.org][Label]]\n", tsB⟩

/-- A note that declares a title different from its filename stem and no
identifier property. -/
def fileBee : OrgFile := ⟨lit "b", lit "#+title: Bee\n", tsA⟩

/-- A note declaring tags `a` and `b`. -/
def noteTagged : OrgFile := ⟨lit "T", lit "#+title: T\n#+filetags: :a:b:\nBody\n", tsA⟩

/-- The same note without the tag line. -/
def noteUntagged : OrgFile := ⟨lit "T", lit "#+title: T\nBody\n", tsA⟩

/-- A note with no header fields at all. -/
def fileBare : OrgFile := ⟨lit "n", lit "hello\n", tsA⟩

/-- A note declaring only an explicit id. -/
def fileWithId : OrgFile := ⟨lit "n", lit ":ID: myid\nBody\n", tsA⟩

/-- A note body holding two disjoint property blocks. -/
def twoBlocksDoc : Str :=
  lit "keep1\n:PROPERTIES:\n:ID: a\n:END:\nmid\n:PROPERTIES:\n:ID: b\n:END:\nend"

/-! Claim theorems. -/

/-- C6: rewriting the identifier-scheme link `[[id:123][Foo]]` produces a
reference built from `123` and the label `Foo` alone, for every title-to-id
index and either link style; the index is never consulted. -/
theorem c6_id_link_ignores_index (t2id : List (Str × Str)) (z : Bool) :
    convert_org_links (lit "[[id:123][Foo]]") t2id z =
      if z then lit "[Foo]([[123]])" else lit "[[123|Foo]]" := by
  cases z <;> rfl

/-- C8: the accepted tag-filter option is never read after parsing, so runs
differing only in that option produce identical outputs, identical index side
files, and the same abort status. -/
theorem c8_tag_filter_has_no_effect (t1 t2 : Option Str) (z : Bool)
    (files : List OrgFile) : runPipeline t1 z files = runPipeline t2 z files := rfl

/-- C9: front matter for tag list `a`, `b` contains the line `tags: [a, b]`;
an empty tag list omits the `tags` line entirely.  Shown generally for the
front-matter builder and end to end for a note declaring `:a:b:` and a note
with no tag line. -/
theorem c9_tags_round_trip :
    (∀ t i : Str, frontmatterFor t i [lit "a", lit "b"] =
        lit "---\ntitle: " ++ (t ++ (lit "\nid: " ++ (i ++ lit "\ntags: [a, b]\n---\n\n")))) ∧
    (∀ t i : Str, frontmatterFor t i [] =
        lit "---\ntitle: " ++ (t ++ (lit "\nid: " ++ (i ++ lit "\n---\n\n")))) ∧
    parse_org_frontmatter noteTagged.content =
      { title := some (lit "T"), tags := [lit "a", lit "b"], id := none } ∧
    step3Note [(lit "T", lit "1")] false noteTagged =
      some (lit "T.md", lit "---\ntitle: T\nid: 1\ntags: [a, b]\n---\n\nBody\n") ∧
    step3Note [(lit "T", lit "1")] false noteUntagged =
      some (lit "T.md", lit "---\ntitle: T\nid: 1\n---\n\nBody\n") ∧
    containsStr (lit "---\ntitle: T\nid: 1\n---\n\nBody\n") (lit "tags:") = false :=
  ⟨fun t i => by simp only [frontmatterFor, List.append_assoc]; rfl,
   fun t i => by simp only [frontmatterFor, List.append_assoc]; rfl,
   by decide⟩

/-- C1 evaluation at a failing input: in the first pass the file handle has
already been exhausted by a debug print, so the index stores a regenerated
timestamp id under the filename stem; the file-scheme link in `fileB` is
rewritten to that timestamp id even though the target note `fileA` declares
(and its front matter carries) the id `myid`. -/
theorem c1_index_regenerates_ids :
    runPipeline none false [fileA, fileB] =
      { outputs :=
          [(lit "note.md", lit "---\ntitle: note\nid: myid\n---\n\nBody\n"),
           (lit "b.md",
            lit "---\ntitle: b\nid: 20240102030406\n---\n\n[[20240102030405|Label]]\n")],
        csv := some [(lit "note", lit "20240102030405"), (lit "b", lit "20240102030406")],
        aborted := false } ∧
    (parse_org_frontmatter fileA.content).id = some (lit "myid") ∧
    dictLookup (buildIndex [fileA, fileB]) (clean_filename (lit "note")) =
      some (lit "20240102030405") ∧
    lit "myid" ≠ lit "20240102030405" := by decide

/-- C2 evaluation at a failing input: a note with a declared title and no
identifier property makes the second pass look up the cleaned title `Bee`,
which the first pass never indexed (it indexed the stem `b` from empty
content), so the run aborts with a `KeyError` instead of converting the
note with defaults. -/
theorem c2_missing_id_aborts :
    runPipeline none false [fileBee] =
      { outputs := [], csv := none, aborted := true } ∧
    (parse_org_frontmatter fileBee.content).id = none ∧
    dictLookup (buildIndex [fileBee]) (clean_filename (lit "Bee")) = none := by decide

/-- C4 counterexample: on a body with two disjoint property blocks the
substitution of line 161 removes both, so the second block does not remain in
the output as the claim states. -/
theorem c4_counterexample :
    stripPropertyBlocks twoBlocksDoc = lit "keep1\n\nmid\n\nend" ∧
    containsStr (stripPropertyBlocks twoBlocksDoc) (lit ":PROPERTIES:") = false ∧
    containsStr (stripPropertyBlocks twoBlocksDoc) (lit ":ID: b") = false := by decide

/-- C7 counterexample: the claim fails for bodies and indices it quantifies
over.  When the cleaned stem `pic` is in the index, the link pass (which runs
first) consumes `[[file:pic.png]]` and rewrites it to a note reference, so
the pipeline does not produce the inline image embed; and even with an empty
index, an occurrence of the reference inside a surrounding link pattern is
consumed as that pattern's label, again yielding no embed. -/
theorem c7_counterexample :
    convert_images (convert_org_links (lit "[[file:pic.png]]")
        [(lit "pic", lit "1")] false) = lit "[[1|file:pic.png]]" ∧
    convert_images (convert_org_links (lit "[[file:pic.png]]")
        [(lit "pic", lit "1")] false) ≠ lit "![](pic.png)" ∧
    convert_images (convert_org_links (lit "[[id:1][[[file:pic.png]]") [] true) =
      lit "[[[file:pic.png]([[1]])" ∧
    containsStr
      (convert_images (convert_org_links (lit "[[id:1][[[file:pic.png]]") [] true))
      (lit "![](") = false := by decide

/-- C7 (amended): for the note body consisting of the unlabeled reference
`[[file:pic.png]]`, any index, and either link style: when the cleaned stem
`pic` has no index entry, the full rewriting pipeline converts the body to
the inline image embed `![](pic.png)`; when `pic` maps to an id `i`, the
link pass consumes the reference and rewrites it to the note reference built
from `i` with label `file:pic.png` in the configured style, so no embed is
produced from it. -/
theorem c7_unlabeled_image_embed (t2id : List (Str × Str)) (z : Bool) :
    (dictLookup t2id (lit "pic") = none →
      convert_images (convert_org_links (lit "[[file:pic.png]]") t2id z) =
        lit "![](pic.png)") ∧
    (∀ i : Str, dictLookup t2id (lit "pic") = some i →
      convert_org_links (lit "[[file:pic.png]]") t2id z =
        if z then lit "[" ++ lit "file:pic.png" ++ (lit "]([[" ++ (i ++ lit "]])"))
        else lit "[[" ++ i ++ (lit "|" ++ (lit "file:pic.png" ++ lit "]]"))) := by
  have h1 : convert_org_links (lit "[[file:pic.png]]") t2id z =
      (dictLookup t2id (lit "pic")).elim
        (lit "[[" ++ (lit "file:pic.png" ++ lit "]]"))
        (fun id_ =>
          if z then lit "[" ++ lit "file:pic.png" ++ (lit "]([[" ++ (id_ ++ lit "]])"))
          else lit "[[" ++ id_ ++ (lit "|" ++ (lit "file:pic.png" ++ lit "]]"))) ++ [] := rfl
  constructor
  · intro h
    rw [h1, h]
    rfl
  · intro i h
    rw [h1, h]
    cases z <;> simp [Option.elim]

/-- C7 witness: both halves at concrete indices and the bracket style. -/
theorem c7_unlabeled_image_embed_witness :
    convert_images (convert_org_links (lit "[[file:pic.png]]") [] false) =
      lit "![](pic.png)" ∧
    convert_org_links (lit "[[file:pic.png]]") [(lit "pic", lit "1")] false =
      lit "[[1|file:pic.png]]" := by
  constructor
  · exact (c7_unlabeled_image_embed [] false).1 rfl
  · rw [(c7_unlabeled_image_embed [(lit "pic", lit "1")] false).2 (lit "1") rfl]
    rfl

/-- The image pass rewrites only where a `[[file:` marker occurs: text with
no occurrence of the marker is copied unchanged, whatever the fuel. -/
theorem convertImagesAux_no_marker : ∀ (s : Str) (n : Nat),
    containsStr s (lit "[[file:") = false → convertImagesAux n s = s := by
  intro s
  induction s with
  | nil =>
    intro n _
    cases n <;> rfl
  | cons c rest ih =>
    intro n h
    simp only [containsStr, Bool.or_eq_false_iff] at h
    cases n with
    | zero => rfl
    | succ m =>
      simp only [convertImagesAux]
      rw [if_neg (by simp [h.1])]
      rw [ih m h.2]

/-- C10: for every index and either link style, the labeled reference
`[[file:pic.png][caption]]` is consumed by the link-translation pass: with no
entry for the cleaned stem `pic` it becomes the bare placeholder
`[[caption]]`, which the image pass leaves untouched, and with an entry `i`
it becomes the note reference built from `i` and the label `caption` in the
configured style.  The last conjunct records that the image pass rewrites
nothing in a text without a `[[file:` marker, so the consumed reference
itself is never turned into an image embed. -/
theorem c10_labeled_image_consumed (t2id : List (Str × Str)) (z : Bool) :
    (dictLookup t2id (lit "pic") = none →
      convert_org_links (lit "[[file:pic.png][caption]]") t2id z = lit "[[caption]]" ∧
      convert_images (convert_org_links (lit "[[file:pic.png][caption]]") t2id z) =
        lit "[[caption]]") ∧
    (∀ i : Str, dictLookup t2id (lit "pic") = some i →
      convert_org_links (lit "[[file:pic.png][caption]]") t2id z =
        if z then lit "[" ++ lit "caption" ++ (lit "]([[" ++ (i ++ lit "]])"))
        else lit "[[" ++ i ++ (lit "|" ++ (lit "caption" ++ lit "]]"))) ∧
    (∀ s : Str, containsStr s (lit "[[file:") = false → convert_images s = s) := by
  have h1 : convert_org_links (lit "[[file:pic.png][caption]]") t2id z =
      (dictLookup t2id (lit "pic")).elim
        (lit "[[" ++ (lit "caption" ++ lit "]]"))
        (fun id_ =>
          if z then lit "[" ++ lit "caption" ++ (lit "]([[" ++ (id_ ++ lit "]])"))
          else lit "[[" ++ id_ ++ (lit "|" ++ (lit "caption" ++ lit "]]"))) ++ [] := rfl
  refine ⟨?_, ?_, fun s hs => convertImagesAux_no_marker s s.length hs⟩
  · intro h
    rw [h1, h]
    exact ⟨rfl, rfl⟩
  · intro i h
    rw [h1, h]
    cases z <;> simp [Option.elim]

/-- C10 witness: the placeholder case at the empty index, the in-index case
at a one-entry index, and the image-pass identity on the resulting note
reference. -/
theorem c10_labeled_image_consumed_witness :
    convert_org_links (lit "[[file:pic.png][caption]]") [] false = lit "[[caption]]" ∧
    convert_org_links (lit "[[file:pic.png][caption]]")
        [(lit "pic", lit "1")] false = lit "[[1|caption]]" ∧
    convert_images (lit "[[1|caption]]") = lit "[[1|caption]]" := by
  refine ⟨((c10_labeled_image_consumed [] false).1 rfl).1, ?_, ?_⟩
  · rw [(c10_labeled_image_consumed [(lit "pic", lit "1")] false).2.1 (lit "1") rfl]
    rfl
  · exact (c10_labeled_image_consumed [] false).2.2 (lit "[[1|caption]]") (by decide)

/-- C3: when a note declares an explicit identifier (or, failing that, the
`roam_key` alias) with value `v`, the second pass uses `v` without consulting
the index, and the `id` field of the output front matter is exactly `v`. -/
theorem c3_explicit_id_exact (t2id : List (Str × Str)) (z : Bool) (f : OrgFile)
    (v : Str) (hid : (parse_org_frontmatter f.content).id = some v) (hne : v ≠ []) :
    ∃ body, step3Note t2id z f =
      some (clean_filename (pathStem (noteTitle f)) ++ lit ".md",
        lit "---\ntitle: " ++ (noteTitle f ++ (lit "\nid: " ++ (v ++ (lit "\n" ++ body))))) := by
  refine ⟨(if (parse_org_frontmatter f.content).tags = [] then []
      else lit "tags: [" ++
        List.intercalate (lit ", ") (parse_org_frontmatter f.content).tags ++ lit "]\n") ++
      (lit "---\n\n" ++
        (pyStrip (stripPropertyBlocks (stripMetaLines
          (convert_images (convert_org_links f.content t2id z)))) ++ lit "\n")), ?_⟩
  simp only [step3Note, noteTitle, hid, pyOr]
  rw [if_neg hne]
  simp only [frontmatterFor, List.append_assoc]
  rfl

/-- C3 witness: a concrete note declaring `:ID: myid`. -/
theorem c3_explicit_id_exact_witness :
    ∃ body, step3Note [] false fileWithId =
      some (clean_filename (pathStem (noteTitle fileWithId)) ++ lit ".md",
        lit "---\ntitle: " ++ (noteTitle fileWithId ++
          (lit "\nid: " ++ (lit "myid" ++ (lit "\n" ++ body))))) :=
  c3_explicit_id_exact [] false fileWithId (lit "myid") (by decide) (by decide)

/-- Lookup after a dict insert: the inserted key maps to the new value, other
keys are unchanged. -/
theorem dictLookup_dictInsert (d : List (Str × Str)) (k' v' k : Str) :
    dictLookup (dictInsert d k' v') k = if k' = k then some v' else dictLookup d k := by
  induction d with
  | nil => simp [dictInsert, dictLookup]
  | cons p rest ih =>
    obtain ⟨k0, v0⟩ := p
    by_cases h1 : k0 = k'
    · subst h1
      by_cases h2 : k0 = k
      · simp [dictInsert, dictLookup, h2]
      · simp [dictInsert, dictLookup, h2]
    · by_cases h2 : k0 = k
      · subst h2
        have h3 : ¬ (k' = k0) := fun h => h1 h.symm
        simp [dictInsert, dictLookup, h1, h3]
      · simp [dictInsert, dictLookup, h1, h2, ih]

/-- Every value stored by the first pass is a generated timestamp id of one of
the input files (the pass parses empty content, so the explicit id of a note
never reaches the index). -/
theorem buildIndex_values (fs : List OrgFile) :
    ∀ (acc : List (Str × Str)) (k v : Str),
      dictLookup (List.foldl buildStep acc fs) k = some v →
      (∃ g ∈ fs, v = create_id g) ∨ dictLookup acc k = some v := by
  induction fs with
  | nil => exact fun acc k v h => Or.inr h
  | cons f rest ih =>
    intro acc k v h
    rcases ih (buildStep acc f) k v h with hg | hacc
    · obtain ⟨g, hg1, hg2⟩ := hg
      exact Or.inl ⟨g, List.mem_cons_of_mem f hg1, hg2⟩
    · have e : buildStep acc f = dictInsert acc (clean_filename f.stem) (create_id f) := rfl
      rw [e, dictLookup_dictInsert] at hacc
      by_cases hk : clean_filename f.stem = k
      · rw [if_pos hk] at hacc
        exact Or.inl ⟨f, List.mem_cons_self f rest, (Option.some.inj hacc).symm⟩
      · rw [if_neg hk] at hacc
        exact Or.inr hacc

/-- The characters 0 through 9 are digits. -/
theorem digitChar_isDigit : ∀ m, m < 10 → (Char.ofNat (48 + m)).isDigit = true := by decide

/-- A number with exactly `k + 1` decimal digits renders as `k + 1` digit
characters, given enough fuel. -/
theorem natDigitsAux_spec : ∀ (k fuel n : Nat), k + 1 ≤ fuel →
    10 ^ k ≤ n → n < 10 ^ (k + 1) →
    (natDigitsAux fuel n).length = k + 1 ∧
      ∀ c ∈ natDigitsAux fuel n, c.isDigit = true := by
  intro k
  induction k with
  | zero =>
    intro fuel n hf h1 h2
    obtain ⟨m, rfl⟩ : ∃ m, fuel = m + 1 := ⟨fuel - 1, by omega⟩
    have hn : n < 10 := by simpa using h2
    simp only [natDigitsAux, if_pos hn]
    refine ⟨rfl, ?_⟩
    intro c hc
    rw [List.mem_singleton] at hc
    subst hc
    exact digitChar_isDigit n hn
  | succ k ih =>
    intro fuel n hf h1 h2
    obtain ⟨m, rfl⟩ : ∃ m, fuel = m + 1 := ⟨fuel - 1, by omega⟩
    have h10 : (10:Nat) ≤ 10 ^ (k + 1) := by
      calc (10:Nat) = 10 ^ 1 := by norm_num
      _ ≤ 10 ^ (k + 1) := Nat.pow_le_pow_right (by norm_num) (by omega)
    have hn : ¬ n < 10 := by omega
    simp only [natDigitsAux, if_neg hn]
    have hd1 : 10 ^ k ≤ n / 10 := by
      rw [Nat.le_div_iff_mul_le (by norm_num)]
      calc 10 ^ k * 10 = 10 ^ (k + 1) := by ring
      _ ≤ n := h1
    have hd2 : n / 10 < 10 ^ (k + 1) := by
      rw [Nat.div_lt_iff_lt_mul (by norm_num)]
      calc n < 10 ^ (k + 1 + 1) := h2
      _ = 10 ^ (k + 1) * 10 := by ring
    obtain ⟨hl, hd⟩ := ih m (n / 10) (by omega) hd1 hd2
    constructor
    · simp only [List.length_append, hl, List.length_singleton]
    · intro c hc
      rcases List.mem_append.mp hc with h | h
      · exact hd c h
      · rw [List.mem_singleton] at h
        subst h
        exact digitChar_isDigit (n % 10) (Nat.mod_lt _ (by norm_num))

/-- A four-digit year renders as four digit characters. -/
theorem natDigits_year (y : Nat) (h1 : 1000 ≤ y) (h2 : y ≤ 9999) :
    (natDigits y).length = 4 ∧ ∀ c ∈ natDigits y, c.isDigit = true := by
  have e3 : (10:Nat) ^ 3 = 1000 := by norm_num
  have e4 : (10:Nat) ^ (3 + 1) = 10000 := by norm_num
  exact natDigitsAux_spec 3 (y + 1) y (by omega) (by omega) (by omega)

/-- A value below 100 renders as exactly two digit characters under the
two-digit padding. -/
theorem pad2_spec (n : Nat) (h : n ≤ 99) :
    (pad2 n).length = 2 ∧ ∀ c ∈ pad2 n, c.isDigit = true := by
  by_cases hn : n < 10
  · unfold pad2
    rw [if_pos hn]
    unfold natDigits
    simp only [natDigitsAux, if_pos hn]
    refine ⟨rfl, ?_⟩
    intro c hc
    rcases List.mem_cons.mp hc with h0 | h0
    · subst h0; decide
    · rw [List.mem_singleton] at h0
      subst h0
      exact digitChar_isDigit n hn
  · unfold pad2
    rw [if_neg hn]
    have e1 : (10:Nat) ^ 1 = 10 := by norm_num
    have e2 : (10:Nat) ^ (1 + 1) = 100 := by norm_num
    exact natDigitsAux_spec 1 (n + 1) n (by omega) (by omega) (by omega)

/-- A generated identifier for a valid datetime is fourteen digit
characters. -/
theorem create_id_format (f : OrgFile) (h : validDT f.ts) :
    (create_id f).length = 14 ∧ ∀ c ∈ create_id f, c.isDigit = true := by
  obtain ⟨h1, h2, h3, h4, h5, h6, h7⟩ := h
  obtain ⟨y1, y2⟩ := natDigits_year f.ts.year h1 h2
  obtain ⟨mo1, mo2⟩ := pad2_spec f.ts.month (by omega)
  obtain ⟨d1, d2⟩ := pad2_spec f.ts.day (by omega)
  obtain ⟨hh1, hh2⟩ := pad2_spec f.ts.hour (by omega)
  obtain ⟨mi1, mi2⟩ := pad2_spec f.ts.minute (by omega)
  obtain ⟨s1, s2⟩ := pad2_spec f.ts.second (by omega)
  unfold create_id formatTs
  constructor
  · simp only [List.length_append, y1, mo1, d1, hh1, mi1, s1]
  · intro c hc
    simp only [List.append_assoc, List.mem_append] at hc
    rcases hc with h | h | h | h | h | h
    · exact y2 c h
    · exact mo2 c h
    · exact d2 c h
    · exact hh2 c h
    · exact mi2 c h
    · exact s2 c h

/-- C5: when a note declares no identifier and the second pass produces an
output for it, the `id` field of its front matter is a generated identifier of
fourteen decimal digits (year month day hour minute second, no sub-second
part), taken from the first-pass index; and two files carrying the same
second-precision timestamp receive identical generated identifiers. -/
theorem c5_generated_id_format (files : List OrgFile) (f : OrgFile) (z : Bool)
    (out : Str × Str) (hval : ∀ g ∈ files, validDT g.ts)
    (hid : (parse_org_frontmatter f.content).id = none)
    (hout : step3Note (buildIndex files) z f = some out) :
    (∃ g ∈ files, ∃ body, out.2 =
        lit "---\ntitle: " ++ (noteTitle f ++
          (lit "\nid: " ++ (create_id g ++ (lit "\n" ++ body)))) ∧
        (create_id g).length = 14 ∧ ∀ c ∈ create_id g, c.isDigit = true) ∧
    (∀ g1 g2 : OrgFile, g1.ts = g2.ts → create_id g1 = create_id g2) := by
  refine ⟨?_, fun g1 g2 h => by unfold create_id; rw [h]⟩
  simp only [step3Note, hid, pyOr] at hout
  cases hlk : dictLookup (buildIndex files)
      (clean_filename (pyOrS (parse_org_frontmatter f.content).title f.stem)) with
  | none =>
    rw [hlk] at hout
    exact absurd hout (by simp)
  | some id_ =>
    rw [hlk] at hout
    rcases buildIndex_values files [] _ _ hlk with ⟨g, hg, rfl⟩ | habs
    · refine ⟨g, hg,
        (if (parse_org_frontmatter f.content).tags = [] then []
         else lit "tags: [" ++
           List.intercalate (lit ", ") (parse_org_frontmatter f.content).tags ++ lit "]\n") ++
         (lit "---\n\n" ++
           (pyStrip (stripPropertyBlocks (stripMetaLines
             (convert_images (convert_org_links f.content (buildIndex files) z)))) ++
             lit "\n")), ?_, create_id_format g (hval g hg)⟩
      rw [← Option.some.inj hout]
      simp only [noteTitle, frontmatterFor, List.append_assoc]
      rfl
    · exact absurd habs (by simp [dictLookup])

/-- C5 witness: a single note with no header fields at all. -/
theorem c5_generated_id_format_witness :
    (∃ g ∈ [fileBare], ∃ body,
        (lit "n.md", lit "---\ntitle: n\nid: 20240102030405\n---\n\nhello\n").2 =
          lit "---\ntitle: " ++ (noteTitle fileBare ++
            (lit "\nid: " ++ (create_id g ++ (lit "\n" ++ body)))) ∧
        (create_id g).length = 14 ∧ ∀ c ∈ create_id g, c.isDigit = true) ∧
    (∀ g1 g2 : OrgFile, g1.ts = g2.ts → create_id g1 = create_id g2) :=
  c5_generated_id_format [fileBare] fileBare false
    (lit "n.md", lit "---\ntitle: n\nid: 20240102030405\n---\n\nhello\n")
    (by decide) (by decide) (by decide)

/-- A list is a prefix of itself followed by anything. -/
theorem isPrefixOf_append_self (l t : List Char) : l.isPrefixOf (l ++ t) = true := by
  induction l with
  | nil => simp [List.isPrefixOf]
  | cons a as ih => simp [List.isPrefixOf, ih]

/-- A marker starting with a colon cannot match at a non-colon character. -/
theorem colon_marker_no_match (p : Str) (hp : p.head? = some ':') (c : Char)
    (rest : Str) (hc : c ≠ ':') : p.isPrefixOf (c :: rest) = false := by
  cases p with
  | nil => simp at hp
  | cons a as =>
    have ha : a = ':' := by simpa using hp
    subst ha
    have hb : (':' == c) = false := beq_eq_false_iff_ne.mpr (fun h => hc h.symm)
    simp [List.isPrefixOf, hb]

/-- Scanning a colon-free span for `:END:` fails until the marker itself. -/
theorem findEndTail_append : ∀ (x : Str), ':' ∉ x → ∀ (rest : Str),
    findEndTail (x ++ (lit ":END:" ++ rest)) = some rest := by
  intro x
  induction x with
  | nil =>
    intro _ rest
    have e : ([] : Str) ++ (lit ":END:" ++ rest) =
        ':' :: (lit "END:" ++ rest) := rfl
    rw [e]
    have h2 : List.isPrefixOf (lit ":END:") (':' :: (lit "END:" ++ rest)) = true :=
      isPrefixOf_append_self (lit ":END:") rest
    simp only [findEndTail]
    rw [if_pos h2]
    rfl
  | cons c x' ih =>
    intro hx rest
    have hc : c ≠ ':' := by
      intro h
      exact hx (by simp [h])
    have hx' : ':' ∉ x' := fun h => hx (List.mem_cons_of_mem c h)
    rw [List.cons_append]
    simp only [findEndTail]
    rw [if_neg (by simp [colon_marker_no_match (lit ":END:") rfl c _ hc])]
    exact ih hx' rest

/-- The line-start status after a `cons` restarts from the status after its
head. -/
theorem afterStatus_cons (b : Bool) (c : Char) (m : Str) :
    afterStatus b (c :: m) = afterStatus (c == '\n') m := rfl

/-- A span ending in a newline leaves the scan at a line start. -/
theorem afterStatus_last_nl : ∀ (m : Str), m.getLast? = some '\n' →
    ∀ b, afterStatus b m = true := by
  intro m
  induction m with
  | nil => intro h b; simp at h
  | cons c m' ih =>
    intro h b
    cases m' with
    | nil =>
      have hc : c = '\n' := by simpa using h
      subst hc
      rfl
    | cons d t =>
      rw [List.getLast?_cons_cons] at h
      exact ih h (c == '\n')

/-- A property block at a line start is matched and deleted whole, and the
scan resumes right after it with one unit of fuel spent. -/
theorem stripPropAux_block (n : Nat) (x tail : Str) (hx : ':' ∉ x) :
    stripPropAux (n + 1) true (lit ":PROPERTIES:" ++ (x ++ (lit ":END:" ++ tail))) =
      stripPropAux n false tail := by
  have e : lit ":PROPERTIES:" ++ (x ++ (lit ":END:" ++ tail)) =
      ':' :: (lit "PROPERTIES:" ++ (x ++ (lit ":END:" ++ tail))) := rfl
  rw [e]
  have hpre : List.isPrefixOf (lit ":PROPERTIES:")
      (':' :: (lit "PROPERTIES:" ++ (x ++ (lit ":END:" ++ tail)))) = true :=
    isPrefixOf_append_self (lit ":PROPERTIES:") (x ++ (lit ":END:" ++ tail))
  simp only [stripPropAux]
  rw [if_pos ⟨trivial, hpre⟩]
  have hdrop : List.drop 12 (':' :: (lit "PROPERTIES:" ++ (x ++ (lit ":END:" ++ tail)))) =
      x ++ (lit ":END:" ++ tail) := List.drop_left (lit ":PROPERTIES:") _
  rw [hdrop, findEndTail_append x hx tail]

/-- The scan copies a colon-free span verbatim, spending one unit of fuel per
character and tracking the line-start status. -/
theorem stripPropAux_copy : ∀ (m : Str), ':' ∉ m → ∀ (n : Nat) (b : Bool) (tail : Str),
    stripPropAux (m.length + n) b (m ++ tail) =
      m ++ stripPropAux n (afterStatus b m) tail := by
  intro m
  induction m with
  | nil =>
    intro _ n b tail
    simp [afterStatus]
  | cons c m' ih =>
    intro hm n b tail
    have hc : c ≠ ':' := by
      intro h
      exact hm (by simp [h])
    have hm' : ':' ∉ m' := fun h => hm (List.mem_cons_of_mem c h)
    have efuel : (c :: m').length + n = (m'.length + n) + 1 := by
      simp only [List.length_cons]
      omega
    rw [efuel, List.cons_append]
    simp only [stripPropAux]
    rw [if_neg (by simp [colon_marker_no_match (lit ":PROPERTIES:") rfl c _ hc])]
    rw [ih hm' n (c == '\n') tail, afterStatus_cons, List.cons_append]

/-- A colon-free tail is copied unchanged when there is enough fuel. -/
theorem stripPropAux_copy_tail : ∀ (r : Str), ':' ∉ r → ∀ (n : Nat) (b : Bool),
    r.length ≤ n → stripPropAux n b r = r := by
  intro r
  induction r with
  | nil =>
    intro _ n b _
    cases n <;> rfl
  | cons c rest ih =>
    intro hr n b h
    have hc : c ≠ ':' := by
      intro hcc
      exact hr (by simp [hcc])
    have hrest : ':' ∉ rest := fun hm => hr (List.mem_cons_of_mem c hm)
    obtain ⟨m, rfl⟩ : ∃ m, n = m + 1 := ⟨n - 1, by simp at h; omega⟩
    simp only [stripPropAux]
    rw [if_neg (by simp [colon_marker_no_match (lit ":PROPERTIES:") rfl c _ hc])]
    rw [ih hrest m (c == '\n') (by simp at h; omega)]

/-- C4 (amended): the substitution of line 161 deletes every disjoint
property block it meets, not only the first: on a body made of one block,
an intervening span ending at a line start, a second block, and a trailing
span (all block interiors and spans free of the colon that could fake a
marker), both blocks are removed. -/
theorem c4_all_blocks_removed (x1 x2 m r : Str) (h1 : ':' ∉ x1) (h2 : ':' ∉ x2)
    (hm : ':' ∉ m) (hr : ':' ∉ r) (hlast : m.getLast? = some '\n') :
    stripPropertyBlocks (propBlock x1 ++ (m ++ (propBlock x2 ++ r))) = m ++ r := by
  unfold stripPropertyBlocks propBlock
  simp only [List.append_assoc]
  have l12 : (lit ":PROPERTIES:").length = 12 := rfl
  have l5 : (lit ":END:").length = 5 := rfl
  have hL : (lit ":PROPERTIES:" ++ (x1 ++ (lit ":END:" ++
      (m ++ (lit ":PROPERTIES:" ++ (x2 ++ (lit ":END:" ++ r))))))).length =
      x1.length + x2.length + m.length + r.length + 34 := by
    simp only [List.length_append, l12, l5]
    omega
  rw [hL]
  rw [show x1.length + x2.length + m.length + r.length + 34 =
      (m.length + (x1.length + x2.length + r.length + 33)) + 1 from by omega]
  rw [stripPropAux_block (m.length + (x1.length + x2.length + r.length + 33)) x1
      (m ++ (lit ":PROPERTIES:" ++ (x2 ++ (lit ":END:" ++ r)))) h1]
  rw [stripPropAux_copy m hm (x1.length + x2.length + r.length + 33) false
      (lit ":PROPERTIES:" ++ (x2 ++ (lit ":END:" ++ r)))]
  rw [afterStatus_last_nl m hlast false]
  rw [show x1.length + x2.length + r.length + 33 =
      (x1.length + x2.length + r.length + 32) + 1 from by omega]
  rw [stripPropAux_block (x1.length + x2.length + r.length + 32) x2 r h2]
  rw [stripPropAux_copy_tail r hr (x1.length + x2.length + r.length + 32) false (by omega)]

/-- C4 witness: the amended statement at concrete blocks and spans. -/
theorem c4_all_blocks_removed_witness :
    stripPropertyBlocks (propBlock (lit "\naa\n") ++
        (lit "\nmid\n" ++ (propBlock (lit "\nbb\n") ++ lit "end"))) =
      lit "\nmid\n" ++ lit "end" :=
  c4_all_blocks_removed (lit "\naa\n") (lit "\nbb\n") (lit "\nmid\n") (lit "end")
    (by decide) (by decide) (by decide) (by decide) (by decide)
